import Mathlib

/- Verification development for the YoPagoCL collaborative bill-splitting backend.

   Shallow embedding of:
   - the per-item assignment engine and the session handlers in
     backend/api/websocket/table_sessions.py,
   - the websocket connection manager in backend/api/websocket/manager.py,
   - the invoice and wallet workflow in backend/api/routers/invoices.py,
     backend/crud/invoices.py and backend/crud/wallets.py.

   Identifiers are integers standing for the UUID primary keys of the rows;
   monetary amounts are integers in minor currency units, exactly as in the
   source; Python floor division is Int.fdiv. -/

/-- Row of the item_assignments table (backend/models/item_assignments.py). -/
structure ItemAssignment where
  id : Nat
  orderItemId : Nat
  creditorId : Nat
  debtorId : Option Nat
  assignedAmount : Int
deriving Repr, DecidableEq

/-- Outbound websocket events emitted by the assignment handlers
    (backend/schemas/websocket.py, sent from backend/api/websocket/table_sessions.py).
    The generic error payload carries only a message string in the source. -/
inductive WsEvent where
  | errorMsg (message : String)
  | assignmentRemoved (assignmentId : Nat)
  | assignmentUpdated (assignmentId : Nat) (assignedAmount : Int)
  | itemAssigned (assignmentId : Nat) (orderItemId : Nat) (creditorId : Nat)
      (debtorId : Option Nat) (assignedAmount : Int)
deriving Repr, DecidableEq

/-- The item_assignments rows of one order item, plus a counter supplying fresh
    primary keys for newly created rows. -/
structure ItemState where
  assignments : List ItemAssignment
  nextId : Nat
deriving Repr, DecidableEq

/-- Initial state of an order item: no assignments. -/
def itemStateInit : ItemState := { assignments := [], nextId := 0 }

/-- Embedding of _get_new_amount_per_assignment
    (backend/api/websocket/table_sessions.py lines 250 to 259): given the current
    number of assignments on the item and a pending adjustment of plus one
    (adding) or minus one (removing), returns the new equal share
    unit_price floor-div new count, or the full unit_price when the new count is zero. -/
def getNewAmountPerAssignment (unitPrice : Int) (currentCount : Nat)
    (negativeAdjustment : Bool) : Int :=
  let newCount : Int := (currentCount : Int) + (if negativeAdjustment then -1 else 1)
  if newCount = 0 then unitPrice
  else unitPrice.fdiv newCount

/-- Body of handle_assign_item after the lock guard
    (backend/api/websocket/table_sessions.py lines 358 to 443): every existing
    assignment whose debtor is the new creditor is deleted first (each with an
    assignment_removed broadcast), the new equal share is computed, the new
    assignment is created, and every assignment on the item is rewritten to the
    new share (each with an assignment_updated broadcast), followed by the
    item_assigned broadcast. -/
def assignItemCore (unitPrice : Int) (itemId : Nat) (st : ItemState)
    (creditorId : Nat) (debtorId : Option Nat) : ItemState × List WsEvent :=
  let matching := st.assignments.filter (fun a => a.debtorId == some creditorId)
  let removalEvents := matching.map (fun a => WsEvent.assignmentRemoved a.id)
  let kept := st.assignments.filter (fun a => !(a.debtorId == some creditorId))
  let newAmount := getNewAmountPerAssignment unitPrice kept.length false
  let newAssignment : ItemAssignment :=
    { id := st.nextId, orderItemId := itemId, creditorId := creditorId,
      debtorId := debtorId, assignedAmount := newAmount }
  let afterCreate := kept ++ [newAssignment]
  let updated := afterCreate.map (fun a => { a with assignedAmount := newAmount })
  let updateEvents := afterCreate.map (fun a => WsEvent.assignmentUpdated a.id newAmount)
  ({ assignments := updated, nextId := st.nextId + 1 },
    removalEvents ++ updateEvents ++
      [WsEvent.itemAssigned newAssignment.id itemId creditorId debtorId newAmount])

/-- Embedding of handle_assign_item (backend/api/websocket/table_sessions.py
    lines 345 to 449) restricted to one order item. If the session is locked the
    handler sends an error and changes nothing; otherwise it runs the body. -/
def handleAssignItem (locked : Bool) (unitPrice : Int) (itemId : Nat)
    (st : ItemState) (creditorId : Nat) (debtorId : Option Nat) :
    ItemState × List WsEvent :=
  if locked then
    (st, [WsEvent.errorMsg "Session is locked. Assignments cannot be modified."])
  else
    assignItemCore unitPrice itemId st creditorId debtorId

/-- Body of handle_remove_assignment after the lock guard and the existence
    check (backend/api/websocket/table_sessions.py lines 484 to 514): the new
    share is computed from the count before deletion, the row is deleted, and
    every remaining assignment is rewritten to the new share, followed by the
    assignment_removed broadcast. -/
def removeAssignmentCore (unitPrice : Int) (st : ItemState) (assignmentId : Nat) :
    ItemState × List WsEvent :=
  let newAmount := getNewAmountPerAssignment unitPrice st.assignments.length true
  let remaining := st.assignments.eraseP (fun a => a.id == assignmentId)
  let updated := remaining.map (fun a => { a with assignedAmount := newAmount })
  let updateEvents := remaining.map (fun a => WsEvent.assignmentUpdated a.id newAmount)
  ({ assignments := updated, nextId := st.nextId },
    updateEvents ++ [WsEvent.assignmentRemoved assignmentId])

/-- Embedding of handle_remove_assignment (backend/api/websocket/table_sessions.py
    lines 452 to 521) restricted to one order item. Locked sessions are rejected
    first; a missing assignment yields an error; otherwise the body runs. -/
def handleRemoveAssignment (locked : Bool) (unitPrice : Int)
    (st : ItemState) (assignmentId : Nat) : ItemState × List WsEvent :=
  if locked then
    (st, [WsEvent.errorMsg "Session is locked. Assignments cannot be modified."])
  else
    match st.assignments.find? (fun a => a.id == assignmentId) with
    | none => (st, [WsEvent.errorMsg "Assignment not found"])
    | some _ => removeAssignmentCore unitPrice st assignmentId

/-- Survivors of the auto-removal pass of assign_item: the assignments whose
    debtor is not the incoming creditor. -/
def assignKept (st : ItemState) (c : Nat) : List ItemAssignment :=
  st.assignments.filter (fun a => !(a.debtorId == some c))

/-- Rows deleted by the auto-removal pass of assign_item: the assignments whose
    debtor is the incoming creditor. -/
def assignMatching (st : ItemState) (c : Nat) : List ItemAssignment :=
  st.assignments.filter (fun a => a.debtorId == some c)

/-- New equal share computed by assign_item after the auto-removal pass. -/
def assignNewAmount (up : Int) (st : ItemState) (c : Nat) : Int :=
  getNewAmountPerAssignment up (assignKept st c).length false

/-- The freshly created assignment row of assign_item. -/
def assignNewRow (up : Int) (itemId : Nat) (st : ItemState) (c : Nat)
    (d : Option Nat) : ItemAssignment :=
  { id := st.nextId, orderItemId := itemId, creditorId := c, debtorId := d,
    assignedAmount := assignNewAmount up st c }

/-- States of one order item reachable from the empty item through any finite
    sequence of assign_item and remove_assignment commands, at any lock state. -/
inductive ItemReachable (unitPrice : Int) (itemId : Nat) : ItemState → Prop where
  | init : ItemReachable unitPrice itemId itemStateInit
  | assign (st : ItemState) (locked : Bool) (creditorId : Nat) (debtorId : Option Nat)
      (h : ItemReachable unitPrice itemId st) :
      ItemReachable unitPrice itemId
        (handleAssignItem locked unitPrice itemId st creditorId debtorId).1
  | remove (st : ItemState) (locked : Bool) (assignmentId : Nat)
      (h : ItemReachable unitPrice itemId st) :
      ItemReachable unitPrice itemId
        (handleRemoveAssignment locked unitPrice st assignmentId).1

/-- Result of handle_calculate_equal_split: either an error sent to the requester
    only, or the broadcast payload total, participant count, amount per person. -/
inductive EqualSplitResult where
  | errorMsg (message : String)
  | broadcast (totalAmount : Int) (participantCount : Nat) (amountPerPerson : Int)
deriving Repr, DecidableEq

/-- Embedding of handle_calculate_equal_split
    (backend/api/websocket/table_sessions.py lines 524 to 566). The source reads
    total = session.total_amount or 0 and falls back to the sum of the order-item
    unit prices whenever that value is zero, which happens both when
    total_amount is NULL and when it is set to the integer zero. -/
def handleCalculateEqualSplit (sessionTotalAmount : Option Int) (itemPrices : List Int)
    (participantCount : Nat) : EqualSplitResult :=
  let total0 := sessionTotalAmount.getD 0
  let total := if total0 = 0 then itemPrices.sum else total0
  if participantCount = 0 then
    EqualSplitResult.errorMsg "No participants in session"
  else
    EqualSplitResult.broadcast total participantCount (total.fdiv (participantCount : Int))

/-- Pointwise update of a function, modelling assignment into a Python dict slot. -/
def setFn {α : Type} (f : Nat → α) (k : Nat) (v : α) : Nat → α :=
  fun x => if x = k then v else f x

/-- Embedding of the ConnectionManager registry
    (backend/api/websocket/manager.py): active_connections is a dict from
    session id to a set of websockets (carried here as the list of present keys
    plus the value function) and websocket_to_session is the reverse dict. -/
structure ConnectionManager where
  activeKeys : List Nat
  activeConns : Nat → List Nat
  wsSession : Nat → Option Nat

/-- The freshly constructed manager: both dicts empty. -/
def ConnectionManager.empty : ConnectionManager :=
  { activeKeys := [], activeConns := fun _ => [], wsSession := fun _ => none }

/-- Embedding of ConnectionManager.connect (backend/api/websocket/manager.py
    lines 15 to 23): creates the session entry when absent, adds the websocket to
    the session set, and records the reverse mapping. -/
def ConnectionManager.connect (m : ConnectionManager) (ws sid : Nat) : ConnectionManager :=
  let conns := if sid ∈ m.activeKeys then m.activeConns sid else []
  let conns2 := if ws ∈ conns then conns else conns ++ [ws]
  { activeKeys := if sid ∈ m.activeKeys then m.activeKeys else m.activeKeys ++ [sid],
    activeConns := setFn m.activeConns sid conns2,
    wsSession := setFn m.wsSession ws (some sid) }

/-- Embedding of ConnectionManager.disconnect (backend/api/websocket/manager.py
    lines 25 to 33): when the websocket is registered, discards it from its
    session set, deletes the session key if the set became empty, and deletes
    the reverse mapping. -/
def ConnectionManager.disconnect (m : ConnectionManager) (ws : Nat) : ConnectionManager :=
  match m.wsSession ws with
  | none => m
  | some sid =>
    if sid ∈ m.activeKeys then
      let conns2 := (m.activeConns sid).erase ws
      if conns2 = [] then
        { activeKeys := m.activeKeys.erase sid,
          activeConns := setFn m.activeConns sid conns2,
          wsSession := setFn m.wsSession ws none }
      else
        { activeKeys := m.activeKeys,
          activeConns := setFn m.activeConns sid conns2,
          wsSession := setFn m.wsSession ws none }
    else
      { activeKeys := m.activeKeys, activeConns := m.activeConns,
        wsSession := setFn m.wsSession ws none }

/-- Connections that actually receive a broadcast_to_session delivery
    (backend/api/websocket/manager.py lines 39 to 72): every connection
    registered to the session, skipping the excluded one by identity, whose
    send succeeds (alive); connections whose send raises are collected instead. -/
def ConnectionManager.deliveredTo (m : ConnectionManager) (sid : Nat)
    (exclude : Option Nat) (alive : Nat → Bool) : List Nat :=
  if sid ∈ m.activeKeys then
    (m.activeConns sid).filter (fun c => !(exclude == some c) && alive c)
  else []

/-- Registry effect of broadcast_to_session: after the send pass completes,
    every connection whose send raised is disconnected. -/
def ConnectionManager.broadcastToSession (m : ConnectionManager) (sid : Nat)
    (exclude : Option Nat) (alive : Nat → Bool) : ConnectionManager :=
  if sid ∈ m.activeKeys then
    let dead := (m.activeConns sid).filter (fun c => !(exclude == some c) && !(alive c))
    dead.foldl (fun acc c => acc.disconnect c) m
  else m

/-- Recipients of the assignment_removed broadcast in handle_remove_assignment
    (backend/api/websocket/table_sessions.py lines 504 to 514): the call passes
    exclude equal to None, so the acting connection is included. -/
def removeAssignmentRecipients (m : ConnectionManager) (sid : Nat)
    (alive : Nat → Bool) : List Nat :=
  m.deliveredTo sid none alive

/-- Recipients of the participant_left broadcast in _cleanup_participant
    (backend/api/websocket/table_sessions.py lines 55 to 64): the call passes
    exclude equal to the disconnecting websocket. -/
def participantLeftRecipients (m : ConnectionManager) (sid : Nat)
    (leaving : Nat) (alive : Nat → Bool) : List Nat :=
  m.deliveredTo sid (some leaving) alive

/-- Managers reachable from the empty registry through any sequence of connect,
    disconnect and broadcast_to_session calls, with no restriction at all on the
    arguments. -/
inductive CMReachable : ConnectionManager → Prop where
  | empty : CMReachable ConnectionManager.empty
  | connect (m : ConnectionManager) (ws sid : Nat) (h : CMReachable m) :
      CMReachable (m.connect ws sid)
  | disconnect (m : ConnectionManager) (ws : Nat) (h : CMReachable m) :
      CMReachable (m.disconnect ws)
  | broadcast (m : ConnectionManager) (sid : Nat) (exclude : Option Nat)
      (alive : Nat → Bool) (h : CMReachable m) :
      CMReachable (m.broadcastToSession sid exclude alive)

/-- Managers reachable from the empty registry when every connect call is made
    with a websocket that is not currently registered, matching how the
    endpoint calls connect exactly once per fresh websocket object. -/
inductive CMFreshReachable : ConnectionManager → Prop where
  | empty : CMFreshReachable ConnectionManager.empty
  | connect (m : ConnectionManager) (ws sid : Nat) (h : CMFreshReachable m)
      (hfresh : m.wsSession ws = none) : CMFreshReachable (m.connect ws sid)
  | disconnect (m : ConnectionManager) (ws : Nat) (h : CMFreshReachable m) :
      CMFreshReachable (m.disconnect ws)
  | broadcast (m : ConnectionManager) (sid : Nat) (exclude : Option Nat)
      (alive : Nat → Bool) (h : CMFreshReachable m) :
      CMFreshReachable (m.broadcastToSession sid exclude alive)

/-- Registry consistency: the two dicts are mutual inverses and no session key
    maps to an empty connection set. -/
def cmConsistent (m : ConnectionManager) : Prop :=
  (∀ w s, (s ∈ m.activeKeys ∧ w ∈ m.activeConns s) ↔ m.wsSession w = some s) ∧
  (∀ s ∈ m.activeKeys, m.activeConns s ≠ [])

/-- Auxiliary bookkeeping facts maintained by the registry: the key list has no
    duplicates and every live connection set has no duplicates. -/
def cmTidy (m : ConnectionManager) : Prop :=
  m.activeKeys.Nodup ∧ ∀ s ∈ m.activeKeys, (m.activeConns s).Nodup

/-- Row of the invoices table (backend/models/invoices.py). The payer and payee
    columns are declared NOT NULL in the model, but the crud layer constructs
    rows without them, so they are carried as options here. -/
structure Invoice where
  id : Nat
  sessionId : Nat
  groupId : Option Nat
  fromUser : Option Nat
  toUser : Option Nat
  totalAmount : Int
  status : String
  paidAt : Option Nat
deriving Repr, DecidableEq

/-- Row of the wallets table (backend/models/wallets.py). -/
structure Wallet where
  id : Nat
  userId : Nat
  balance : Int
deriving Repr, DecidableEq

/-- Row of the wallet_transactions table (backend/models/wallet_transactions.py). -/
structure WalletTransaction where
  id : Nat
  walletId : Nat
  txType : String
  amount : Int
deriving Repr, DecidableEq

/-- Row of the table_participants table (backend/models/table_participants.py). -/
structure Participant where
  id : Nat
  sessionId : Nat
  userId : Option Nat
deriving Repr, DecidableEq

/-- Row of the order_items table (backend/models/order_items.py). -/
structure OrderItemRow where
  id : Nat
  sessionId : Nat
  unitPrice : Int
deriving Repr, DecidableEq

/-- Row of the table_sessions table (backend/models/table_sessions.py). -/
structure SessionRow where
  id : Nat
  restaurantId : Nat
  status : String
  totalAmount : Option Int
  locked : Bool
  sessionEnd : Option Nat
deriving Repr, DecidableEq

/-- Row of the restaurants table: the rut key and the owner user. -/
structure RestaurantRow where
  rut : Nat
  owner : Nat
deriving Repr, DecidableEq

/-- The database state read and written by the invoice and wallet workflow.
    groupMembers holds the group_members rows as pairs of group id and user id;
    invoiceItems holds the invoice_items rows as pairs of invoice id and
    item_assignment id. -/
structure Db where
  sessions : List SessionRow
  restaurants : List RestaurantRow
  participants : List Participant
  orderItems : List OrderItemRow
  assignments : List ItemAssignment
  invoices : List Invoice
  invoiceItems : List (Nat × Nat)
  wallets : List Wallet
  walletTransactions : List WalletTransaction
  groupMembers : List (Nat × Nat)
  nextInvoiceId : Nat
  nextTransactionId : Nat
deriving Repr, DecidableEq

/-- Embedding of get_assignments_by_session_id (backend/crud/item_assignments.py):
    item assignments joined with order_items on the item id, filtered by the
    session of the order item. -/
def getAssignmentsBySessionId (db : Db) (sid : Nat) : List ItemAssignment :=
  db.assignments.filter
    (fun a => db.orderItems.any (fun oi => oi.id == a.orderItemId && oi.sessionId == sid))

/-- Embedding of get_participant_by_id (backend/crud/table_participants.py). -/
def getParticipantById (db : Db) (pid : Nat) : Option Participant :=
  db.participants.find? (fun p => p.id == pid)

/-- Embedding of validate_users_in_group (backend/crud/invoices.py lines 12 to 42):
    both users must have a group_members row for the group. -/
def validateUsersInGroup (db : Db) (gid creditorUser debtorUser : Nat) : Bool :=
  db.groupMembers.contains (gid, creditorUser) && db.groupMembers.contains (gid, debtorUser)

/-- Embedding of get_or_create_wallet (backend/crud/wallets.py lines 8 to 19). -/
def getOrCreateWallet (db : Db) (userId : Nat) (freshId : Nat) : Db × Wallet :=
  match db.wallets.find? (fun w => w.userId == userId) with
  | some w => (db, w)
  | none =>
    let w : Wallet := { id := freshId, userId := userId, balance := 0 }
    ({ db with wallets := db.wallets ++ [w] }, w)

/-- Embedding of create_wallet_transaction (backend/crud/wallets.py lines 32 to 69):
    appends a transaction row and adds its signed amount to the wallet balance,
    failing when the wallet does not exist. No function in the payment workflow
    under backend/api/routers/invoices.py ever calls it. -/
def createWalletTransaction (db : Db) (walletId : Nat) (txType : String)
    (amount : Int) : Option (Db × WalletTransaction) :=
  match db.wallets.find? (fun w => w.id == walletId) with
  | none => none
  | some _ =>
    let tx : WalletTransaction :=
      { id := db.nextTransactionId, walletId := walletId, txType := txType, amount := amount }
    some
      ({ db with
          walletTransactions := db.walletTransactions ++ [tx],
          wallets := db.wallets.map
            (fun w => if w.id == walletId then { w with balance := w.balance + amount } else w),
          nextTransactionId := db.nextTransactionId + 1 }, tx)

/-- Payload of the InvoiceCreate schema (backend/schemas/invoices.py): the caller
    supplies session, group, payer, payee, amount and the backing assignment ids. -/
structure InvoiceCreateData where
  sessionId : Nat
  groupId : Nat
  fromUser : Nat
  toUser : Nat
  totalAmount : Int
  invoiceItems : List Nat
deriving Repr, DecidableEq

/-- Embedding of create_invoice (backend/crud/invoices.py lines 45 to 75). The
    source constructs the Invoice row from session_id, group_id, total_amount,
    description, currency, due_date and status only: the from_user and to_user
    values present in the InvoiceCreate payload are never copied onto the row,
    so the stored invoice has no payer and no payee. The invoice_items rows are
    then created from the payload. -/
def createInvoice (db : Db) (data : InvoiceCreateData) : Db × Invoice :=
  let inv : Invoice :=
    { id := db.nextInvoiceId, sessionId := data.sessionId, groupId := some data.groupId,
      fromUser := none, toUser := none,
      totalAmount := data.totalAmount, status := "pending", paidAt := none }
  ({ db with
      invoices := db.invoices ++ [inv],
      invoiceItems := db.invoiceItems ++ data.invoiceItems.map (fun aid => (db.nextInvoiceId, aid)),
      nextInvoiceId := db.nextInvoiceId + 1 }, inv)

/-- Embedding of mark_invoice_paid (backend/crud/invoices.py lines 157 to 174):
    returns none when the invoice does not exist; otherwise sets status to paid
    and paid_at to the supplied timestamp or the current time, and commits. The
    source touches no other table: it creates no wallets and no wallet
    transactions. -/
def markInvoicePaid (db : Db) (invoiceId : Nat) (paidAt : Option Nat) (now : Nat) :
    Db × Option Invoice :=
  match db.invoices.find? (fun i => i.id == invoiceId) with
  | none => (db, none)
  | some inv =>
    let inv2 := { inv with status := "paid", paidAt := some (paidAt.getD now) }
    ({ db with invoices := db.invoices.map (fun i => if i.id == invoiceId then inv2 else i) },
      some inv2)

/-- Appends an element unless already present, keeping first-occurrence order. -/
def insertIfAbsent (l : List Nat) (a : Nat) : List Nat :=
  if a ∈ l then l else l ++ [a]

/-- Creditor ids of the assignments in defaultdict grouping order: the order of
    first occurrence, as Python dict iteration preserves insertion order. -/
def creditorKeys (asgs : List ItemAssignment) : List Nat :=
  asgs.foldl (fun acc a => insertIfAbsent acc a.creditorId) []

/-- Embedding of the inner debtor loop of pay_bill
    (backend/api/routers/invoices.py lines 198 to 231): for an assignment with a
    debtor, resolves the debtor participant to a user, validates the group
    membership of debtor and creditor, and creates a pending invoice for that
    single assignment amount; any failed lookup or validation skips the
    assignment. -/
def payBillDebtorStep (gid creditorUser sessionId : Nat)
    (acc : Db × List Invoice) (a : ItemAssignment) : Db × List Invoice :=
  match a.debtorId with
  | none => acc
  | some debtorPid =>
    match (getParticipantById acc.1 debtorPid).bind (fun p => p.userId) with
    | none => acc
    | some debtorUser =>
      if validateUsersInGroup acc.1 gid debtorUser creditorUser then
        let r := createInvoice acc.1
          { sessionId := sessionId, groupId := gid, fromUser := debtorUser,
            toUser := creditorUser, totalAmount := a.assignedAmount,
            invoiceItems := [a.id] }
        (r.1, acc.2 ++ [r.2])
      else acc

/-- Embedding of the per-creditor body of pay_bill
    (backend/api/routers/invoices.py lines 159 to 231): resolves the creditor
    participant to a user, sums the group amounts, validates the group
    membership of creditor and restaurant admin, creates the creditor invoice,
    marks it paid immediately, then runs the debtor loop over the creditor
    assignments; any failed lookup or validation skips the whole creditor. -/
def payBillCreditorStep (gid adminId sessionId : Nat) (asgs : List ItemAssignment)
    (now : Nat) (acc : Db × List Invoice) (creditorPid : Nat) : Db × List Invoice :=
  let casgs := asgs.filter (fun a => a.creditorId == creditorPid)
  match (getParticipantById acc.1 creditorPid).bind (fun p => p.userId) with
  | none => acc
  | some creditorUser =>
    let totalCreditorAmount := (casgs.map (fun a => a.assignedAmount)).sum
    if validateUsersInGroup acc.1 gid creditorUser adminId then
      let r := createInvoice acc.1
        { sessionId := sessionId, groupId := gid, fromUser := creditorUser,
          toUser := adminId, totalAmount := totalCreditorAmount,
          invoiceItems := casgs.map (fun a => a.id) }
      let m := markInvoicePaid r.1 r.2.id (some now) now
      let acc1 := (m.1, acc.2 ++ [m.2.getD r.2])
      casgs.foldl (payBillDebtorStep gid creditorUser sessionId) acc1
    else acc

/-- Participants of a session (backend/crud/table_participants.py). -/
def sessionParticipants (db : Db) (sid : Nat) : List Participant :=
  db.participants.filter (fun p => p.sessionId == sid)

/-- Users who, as creditors, have at least one assignment in the session,
    re-derived in the auto-finalize check of pay_bill
    (backend/api/routers/invoices.py lines 255 to 263). -/
def participantsWithAssignments (db : Db) (sid : Nat) : List Nat :=
  (getAssignmentsBySessionId db sid).filterMap
    (fun a => ((sessionParticipants db sid).find? (fun p => p.id == a.creditorId)).bind
      (fun p => p.userId))

/-- Users who appear as from_user on at least one paid invoice of the session
    (backend/api/routers/invoices.py lines 246 to 269); invoices with no
    from_user value are skipped by the truthiness test in the source. -/
def participantsWhoPaid (db : Db) (sid : Nat) : List Nat :=
  (db.invoices.filter (fun i => i.sessionId == sid && i.status == "paid")).filterMap
    (fun i => i.fromUser)

/-- Sum of all assignment amounts of the session, used as the finalized total. -/
def sessionAssignmentsTotal (db : Db) (sid : Nat) : Int :=
  ((getAssignmentsBySessionId db sid).map (fun a => a.assignedAmount)).sum

/-- Embedding of the auto-finalize block of pay_bill
    (backend/api/routers/invoices.py lines 238 to 306): when the creditor user
    set is non-empty and contained in the paid payer set, the session row gets
    status closed, total_amount equal to the assignment sum, and session_end
    stamped; otherwise the state is unchanged. -/
def finalizePhase (db : Db) (sid : Nat) (now : Nat) : Db :=
  let allPaid :=
    decide (0 < (participantsWithAssignments db sid).length) &&
      (participantsWithAssignments db sid).all
        (fun u => (participantsWhoPaid db sid).contains u)
  if allPaid then
    match db.sessions.find? (fun s => s.id == sid) with
    | none => db
    | some _ =>
      { db with sessions := db.sessions.map (fun s =>
          if s.id == sid then
            { s with totalAmount := some (sessionAssignmentsTotal db sid),
                     status := "closed", sessionEnd := some now }
          else s) }
  else db

/-- Failure modes raised by pay_bill (backend/api/routers/invoices.py lines 129
    to 147): missing session, missing restaurant, no assignments. The source has
    no insufficient-funds branch of any kind. -/
inductive PayBillError where
  | sessionNotFound
  | restaurantNotFound
  | noAssignments
deriving Repr, DecidableEq

/-- Embedding of pay_bill (backend/api/routers/invoices.py lines 111 to 312):
    resolves session and restaurant, fetches the session assignments, groups
    them by creditor in first-occurrence order, runs the per-creditor settlement
    for each group, and finally runs the auto-finalize block. The currentUser
    and amount fields of the request are only logged by the source, which also
    never reads any wallet. -/
def payBill (db : Db) (currentUser : Nat) (sessionId : Nat) (groupId : Nat)
    (amount : Int) (now : Nat) : Except PayBillError (Db × List Invoice) :=
  match db.sessions.find? (fun s => s.id == sessionId) with
  | none => Except.error PayBillError.sessionNotFound
  | some session =>
    match db.restaurants.find? (fun r => r.rut == session.restaurantId) with
    | none => Except.error PayBillError.restaurantNotFound
    | some restaurant =>
      let adminId := restaurant.owner
      let assignments := getAssignmentsBySessionId db sessionId
      if assignments.isEmpty then Except.error PayBillError.noAssignments
      else
        let result := (creditorKeys assignments).foldl
          (payBillCreditorStep groupId adminId sessionId assignments now) (db, [])
        Except.ok (finalizePhase result.1 sessionId now, result.2)

/-- Empty database, convenient base for the concrete examples below. -/
def dbEmpty : Db :=
  { sessions := [], restaurants := [], participants := [], orderItems := [],
    assignments := [], invoices := [], invoiceItems := [], wallets := [],
    walletTransactions := [], groupMembers := [], nextInvoiceId := 0,
    nextTransactionId := 0 }

/-- Concrete database with one pending invoice of total 100 between users 7 and
    99 and both wallets present, for exercising mark_invoice_paid. -/
def dbMarkPaid : Db :=
  { dbEmpty with
    invoices := [{ id := 1, sessionId := 5, groupId := some 2, fromUser := some 7,
                   toUser := some 99, totalAmount := 100, status := "pending",
                   paidAt := none }],
    wallets := [{ id := 1, userId := 7, balance := 500 },
                { id := 2, userId := 99, balance := 0 }] }

/-- Concrete database for pay_bill: session 5 at restaurant 3 owned by admin
    user 99, creditor participant 1 (user 7) with a self-pay assignment of 50
    and an assignment of 50 owed by debtor participant 2 (user 8), all three
    users members of group 2. -/
def dbPay : Db :=
  { dbEmpty with
    sessions := [{ id := 5, restaurantId := 3, status := "active",
                   totalAmount := none, locked := false, sessionEnd := none }],
    restaurants := [{ rut := 3, owner := 99 }],
    participants := [{ id := 1, sessionId := 5, userId := some 7 },
                     { id := 2, sessionId := 5, userId := some 8 }],
    orderItems := [{ id := 1, sessionId := 5, unitPrice := 100 }],
    assignments := [{ id := 1, orderItemId := 1, creditorId := 1, debtorId := none,
                      assignedAmount := 50 },
                    { id := 2, orderItemId := 1, creditorId := 1, debtorId := some 2,
                      assignedAmount := 50 }],
    groupMembers := [(2, 7), (2, 8), (2, 99)] }

/-- The pay_bill database with the requesting user 9 holding a wallet of
    balance zero, far below the requested amount. -/
def dbPayPoor : Db :=
  { dbPay with wallets := [{ id := 1, userId := 9, balance := 0 }] }

/-- The pay_bill database extended with a pre-existing paid invoice whose
    from_user is user 7, making the auto-finalize condition true. -/
def dbPayFinal : Db :=
  { dbPay with
    invoices := [{ id := 10, sessionId := 5, groupId := some 2, fromUser := some 7,
                   toUser := some 99, totalAmount := 100, status := "paid",
                   paidAt := some 50 }] }

/-- First step of the claim 4 counterexample: participant 1 pays item 0 on
    behalf of participant 2. -/
def c4StateA : ItemState := (handleAssignItem false 100 0 itemStateInit 1 (some 2)).1

/-- Second step of the claim 4 counterexample: participant 3 pays on behalf of
    participant 1, who is already a creditor on the item. -/
def c4StateB : ItemState := (handleAssignItem false 100 0 c4StateA 3 (some 1)).1

/-- Item state reached by two plain self-pay assigns, used as the witness state
    for the share invariant. -/
def c2State : ItemState :=
  (handleAssignItem false 100 0 (handleAssignItem false 100 0 itemStateInit 1 none).1 2 none).1

/-- Item state holding one assignment where participant 3 is the debtor, used
    as witness input for the auto-removal rule. -/
def c4AmState : ItemState :=
  { assignments := [{ id := 0, orderItemId := 0, creditorId := 1, debtorId := some 3,
                      assignedAmount := 100 }], nextId := 1 }

/-- Manager obtained by connecting websocket 1 to session 10 and then, without
    disconnecting, to session 20. -/
def cmDouble : ConnectionManager := (ConnectionManager.empty.connect 1 10).connect 1 20

/-- Manager obtained by one fresh connect of websocket 1 to session 10. -/
def cmFreshOne : ConnectionManager := ConnectionManager.empty.connect 1 10

/-- Unfolding helper: the assignments of the state produced by the assign body. -/
lemma assignItemCore_assignments (up : Int) (itemId : Nat) (st : ItemState)
    (c : Nat) (d : Option Nat) :
    (assignItemCore up itemId st c d).1.assignments =
      (assignKept st c ++ [assignNewRow up itemId st c d]).map
        (fun a => { a with assignedAmount := assignNewAmount up st c }) :=
  rfl

/-- Unfolding helper: the events produced by the assign body start with the
    removal broadcasts of the deleted prior assignments. -/
lemma assignItemCore_events (up : Int) (itemId : Nat) (st : ItemState)
    (c : Nat) (d : Option Nat) :
    (assignItemCore up itemId st c d).2 =
      (assignMatching st c).map (fun a => WsEvent.assignmentRemoved a.id) ++
        (assignKept st c ++ [assignNewRow up itemId st c d]).map
          (fun a => WsEvent.assignmentUpdated a.id (assignNewAmount up st c)) ++
        [WsEvent.itemAssigned st.nextId itemId c d (assignNewAmount up st c)] :=
  rfl

/-- Unfolding helper: the assignments of the state produced by the remove body. -/
lemma removeAssignmentCore_assignments (up : Int) (st : ItemState) (aid : Nat) :
    (removeAssignmentCore up st aid).1.assignments =
      (st.assignments.eraseP (fun a => a.id == aid)).map
        (fun a => { a with assignedAmount := getNewAmountPerAssignment up st.assignments.length true }) :=
  rfl

/-- Unfolding helper: the locked branch of handle_assign_item. -/
lemma handleAssignItem_true (up : Int) (itemId : Nat) (st : ItemState)
    (c : Nat) (d : Option Nat) :
    handleAssignItem true up itemId st c d =
      (st, [WsEvent.errorMsg "Session is locked. Assignments cannot be modified."]) :=
  rfl

/-- Unfolding helper: the unlocked branch of handle_assign_item. -/
lemma handleAssignItem_false (up : Int) (itemId : Nat) (st : ItemState)
    (c : Nat) (d : Option Nat) :
    handleAssignItem false up itemId st c d = assignItemCore up itemId st c d :=
  rfl

/-- Unfolding helper: the locked branch of handle_remove_assignment. -/
lemma handleRemoveAssignment_true (up : Int) (st : ItemState) (aid : Nat) :
    handleRemoveAssignment true up st aid =
      (st, [WsEvent.errorMsg "Session is locked. Assignments cannot be modified."]) :=
  rfl

/-- Pointwise update reads back the written value at the written key. -/
lemma setFn_same {α : Type} (f : Nat → α) (k : Nat) (v : α) : setFn f k v k = v := by
  simp [setFn]

/-- Pointwise update leaves every other key unchanged. -/
lemma setFn_other {α : Type} (f : Nat → α) (k x : Nat) (v : α) (h : x ≠ k) :
    setFn f k v x = f x := by
  simp [setFn, h]

/-- Boolean equality of none against some is false. -/
lemma none_beq_some (x : Nat) : ((none : Option Nat) == some x) = false := rfl

/-- Boolean equality of two some values reduces to equality of the contents. -/
lemma some_beq_some (x y : Nat) : ((some x : Option Nat) == some y) = (x == y) := rfl

/-- C1: mark_invoice_paid only rewrites the invoice row. On an existing invoice
    it sets status to paid and paid_at to the supplied timestamp, or to the
    current time when none is supplied, but it creates no wallets and no wallet
    transactions and leaves every wallet balance unchanged, contradicting the
    claimed double-entry pair; on a missing invoice it returns none and changes
    nothing. -/
theorem mark_invoice_paid_no_wallet_transactions :
    (markInvoicePaid dbMarkPaid 1 (some 50) 100).1.walletTransactions =
        dbMarkPaid.walletTransactions ∧
    (markInvoicePaid dbMarkPaid 1 (some 50) 100).1.wallets = dbMarkPaid.wallets ∧
    ((markInvoicePaid dbMarkPaid 1 (some 50) 100).2.map
        (fun i => (i.status, i.paidAt))) = some ("paid", some 50) ∧
    ((markInvoicePaid dbMarkPaid 1 none 100).2.map
        (fun i => (i.status, i.paidAt))) = some ("paid", some 100) ∧
    markInvoicePaid dbMarkPaid 999 none 100 = (dbMarkPaid, none) :=
  ⟨rfl, rfl, rfl, rfl, rfl⟩

/-- C3: the crud create_invoice never copies from_user and to_user from the
    payload onto the stored row, even though the model declares both NOT NULL,
    so the invoices produced by pay_bill carry no payer and no payee: the
    per-creditor invoice (total 100, immediately paid) and the per-debtor
    invoice (amount 50, pending) both come out with from_user and to_user
    empty instead of creditor to admin and debtor to creditor. -/
theorem create_invoice_drops_user_fields :
    (createInvoice dbPay
        { sessionId := 5, groupId := 2, fromUser := 7, toUser := 99,
          totalAmount := 100, invoiceItems := [1, 2] }).2.fromUser = none ∧
    (createInvoice dbPay
        { sessionId := 5, groupId := 2, fromUser := 7, toUser := 99,
          totalAmount := 100, invoiceItems := [1, 2] }).2.toUser = none ∧
    ((payBill dbPay 7 5 2 100 77).toOption.map
        (fun r => r.2.map (fun i => (i.fromUser, i.toUser, i.totalAmount, i.status)))) =
      some [(none, none, 100, "paid"), (none, none, 50, "pending")] :=
  ⟨rfl, rfl, rfl⟩

/-- C5: on a locked session both assign_item and remove_assignment answer with
    the session-locked error event and leave the assignment state, hence every
    assigned amount, unchanged; no other field of the command is even read
    before the guard, so the rejection holds for every requester. -/
theorem locked_session_rejects_mutations :
    ∀ (unitPrice : Int) (itemId : Nat) (st : ItemState) (c : Nat) (d : Option Nat)
      (aid : Nat),
      (handleAssignItem true unitPrice itemId st c d).1 = st ∧
      (handleAssignItem true unitPrice itemId st c d).2 =
        [WsEvent.errorMsg "Session is locked. Assignments cannot be modified."] ∧
      (handleRemoveAssignment true unitPrice st aid).1 = st ∧
      (handleRemoveAssignment true unitPrice st aid).2 =
        [WsEvent.errorMsg "Session is locked. Assignments cannot be modified."] :=
  fun _ _ _ _ _ _ => ⟨rfl, rfl, rfl, rfl⟩

/-- C6: pay_bill performs no insufficient-funds check. With the requesting user
    holding a wallet of balance zero and a requested amount of 5000, the call
    still succeeds and creates two invoices while touching no wallet and no
    wallet transaction; moreover the result of pay_bill does not depend on the
    requested amount at all, so no balance comparison can occur. -/
theorem pay_bill_ignores_wallet_balance :
    ((payBill dbPayPoor 9 5 2 5000 77).toOption.map
        (fun r => (r.1.wallets, r.1.walletTransactions, r.2.length))) =
      some ([{ id := 1, userId := 9, balance := 0 }], [], 2) ∧
    (∀ (db : Db) (cu sid gid : Nat) (a b : Int) (now : Nat),
      payBill db cu sid gid a now = payBill db cu sid gid b now) :=
  ⟨rfl, fun _ _ _ _ _ _ _ => rfl⟩

/-- C8 counterexample: a session whose total_amount is set to the integer zero
    is treated like an unset total by handle_calculate_equal_split, because the
    source computes total with a Python or-expression; with one item of 500 and
    one participant the broadcast carries 500, not the set total zero that the
    claim prescribes. -/
theorem equal_split_set_total_zero_counterexample :
    handleCalculateEqualSplit (some 0) [500] 1 = EqualSplitResult.broadcast 500 1 500 ∧
    handleCalculateEqualSplit (some 0) [500] 1 ≠ EqualSplitResult.broadcast 0 1 0 := by
  exact ⟨by decide, by decide⟩

/-- C8 amended: with at least one participant the handler broadcasts
    amount_per_person equal to total floor-div participant count, where total is
    session.total_amount when that is set and non-zero and otherwise the sum of
    the order-item unit prices; with zero participants it answers the
    user-visible error and broadcasts nothing. -/
theorem equal_split_amended :
    (∀ (t : Int), t ≠ 0 → ∀ (itemPrices : List Int) (n : Nat), 0 < n →
      handleCalculateEqualSplit (some t) itemPrices n =
        EqualSplitResult.broadcast t n (t.fdiv (n : Int))) ∧
    (∀ (itemPrices : List Int) (n : Nat), 0 < n →
      handleCalculateEqualSplit none itemPrices n =
        EqualSplitResult.broadcast itemPrices.sum n (itemPrices.sum.fdiv (n : Int))) ∧
    (∀ (ta : Option Int) (itemPrices : List Int),
      handleCalculateEqualSplit ta itemPrices 0 =
        EqualSplitResult.errorMsg "No participants in session") := by
  refine ⟨?_, ?_, ?_⟩
  · intro t ht itemPrices n hn
    simp [handleCalculateEqualSplit, ht, hn.ne']
  · intro itemPrices n hn
    simp [handleCalculateEqualSplit, hn.ne']
  · intro ta itemPrices
    simp [handleCalculateEqualSplit]

/-- C8 amended witness: three participants over items summing 10000 receive
    3333 each; a set non-zero total 700 over two participants yields 350; zero
    participants yield the error. -/
theorem equal_split_amended_witness :
    handleCalculateEqualSplit none [4000, 6000] 3 = EqualSplitResult.broadcast 10000 3 3333 ∧
    handleCalculateEqualSplit (some 700) [1] 2 = EqualSplitResult.broadcast 700 2 350 ∧
    handleCalculateEqualSplit (some 0) [500] 0 =
      EqualSplitResult.errorMsg "No participants in session" := by
  refine ⟨(equal_split_amended.2.1 [4000, 6000] 3 (by decide)).trans (by decide),
    (equal_split_amended.1 700 (by decide) [1] 2 (by decide)).trans (by decide),
    equal_split_amended.2.2 (some 0) [500]⟩

/-- C4 counterexample: starting from an empty order item of price 100, the
    reachable command sequence assign(creditor 1, debtor 2) followed by
    assign(creditor 3, debtor 1) leaves a state in which participant 1 is the
    creditor of one assignment and the debtor of another on the same item: the
    handler never checks whether the requested debtor already credits the item. -/
theorem creditor_also_debtor_reachable :
    ItemReachable 100 0 c4StateB ∧
    ¬ (∀ a ∈ c4StateB.assignments, ∀ b ∈ c4StateB.assignments,
        some a.creditorId ≠ b.debtorId) := by
  constructor
  · exact ItemReachable.assign c4StateA false 3 (some 1)
      (ItemReachable.assign itemStateInit false 1 (some 2) ItemReachable.init)
  · decide

/-- C4 amended: when assign_item runs with creditor c, every prior assignment
    whose debtor is c is deleted and its assignment_removed event is emitted, so
    that, provided the new debtor is not c itself, c appears as debtor on no
    assignment of the item immediately afterwards; the session-wide mutual
    exclusion claimed for all reachable states does not hold, because
    assign_item never checks whether the requested debtor already appears as a
    creditor on the item. -/
theorem assign_item_auto_removal (unitPrice : Int) (itemId : Nat) (st : ItemState)
    (c : Nat) (d : Option Nat) (hd : d ≠ some c) :
    (∀ a ∈ (handleAssignItem false unitPrice itemId st c d).1.assignments,
      a.debtorId ≠ some c) ∧
    (∀ a ∈ st.assignments, a.debtorId = some c →
      WsEvent.assignmentRemoved a.id ∈ (handleAssignItem false unitPrice itemId st c d).2) := by
  constructor
  · intro a ha
    rw [handleAssignItem_false, assignItemCore_assignments] at ha
    rcases List.mem_map.1 ha with ⟨b, hb, rfl⟩
    show b.debtorId ≠ some c
    rcases List.mem_append.1 hb with hb | hb
    · have hb2 : b ∈ st.assignments ∧ ¬ b.debtorId = some c := by
        simpa [assignKept] using hb
      exact hb2.2
    · have hb2 : b = assignNewRow unitPrice itemId st c d := by simpa using hb
      subst hb2
      simpa [assignNewRow] using hd
  · intro a ha hdc
    rw [handleAssignItem_false, assignItemCore_events]
    refine List.mem_append.2 (Or.inl (List.mem_append.2 (Or.inl ?_)))
    exact List.mem_map_of_mem _ (List.mem_filter.2 ⟨ha, by simp [hdc]⟩)

/-- C4 amended witness: in a state where participant 3 is debtor of the only
    assignment, assigning with creditor 3 removes that assignment, emits its
    removal event, and the surviving row does not name 3 as debtor. -/
theorem assign_item_auto_removal_witness :
    ({ id := 1, orderItemId := 0, creditorId := 3, debtorId := none,
       assignedAmount := 100 } : ItemAssignment).debtorId ≠ some 3 ∧
    WsEvent.assignmentRemoved 0 ∈ (handleAssignItem false 100 0 c4AmState 3 none).2 :=
  ⟨(assign_item_auto_removal 100 0 c4AmState 3 none (by decide)).1
      { id := 1, orderItemId := 0, creditorId := 3, debtorId := none, assignedAmount := 100 }
      (by decide),
    (assign_item_auto_removal 100 0 c4AmState 3 none (by decide)).2
      { id := 0, orderItemId := 0, creditorId := 1, debtorId := some 3, assignedAmount := 100 }
      (by decide) rfl⟩

/-- C9: the assignment_removed broadcast of remove_assignment passes no
    exclusion, so a websocket receives it exactly when it is registered to the
    session and its send succeeds, the acting connection included; the
    participant_left broadcast of the disconnect cleanup excludes the
    disconnecting websocket, so a websocket receives it exactly when it is
    registered, alive and different from the leaving one. -/
lemma mem_deliveredTo (m : ConnectionManager) (sid : Nat) (exclude : Option Nat)
    (alive : Nat → Bool) (w : Nat) :
    w ∈ m.deliveredTo sid exclude alive ↔
      sid ∈ m.activeKeys ∧ w ∈ m.activeConns sid ∧ exclude ≠ some w ∧ alive w = true := by
  unfold ConnectionManager.deliveredTo
  by_cases h : sid ∈ m.activeKeys
  · rw [if_pos h, List.mem_filter]
    simp [h, Bool.and_eq_true, Bool.not_eq_true', beq_eq_false_iff_ne, and_assoc]
  · rw [if_neg h]
    simp [h]

theorem broadcast_fanout_membership :
    ∀ (m : ConnectionManager) (sid : Nat) (alive : Nat → Bool) (w leaving : Nat),
      (w ∈ removeAssignmentRecipients m sid alive ↔
        sid ∈ m.activeKeys ∧ w ∈ m.activeConns sid ∧ alive w = true) ∧
      (w ∈ participantLeftRecipients m sid leaving alive ↔
        sid ∈ m.activeKeys ∧ w ∈ m.activeConns sid ∧ w ≠ leaving ∧ alive w = true) := by
  intro m sid alive w leaving
  constructor
  · rw [removeAssignmentRecipients, mem_deliveredTo]
    simp
  · rw [participantLeftRecipients, mem_deliveredTo]
    constructor
    · rintro ⟨h1, h2, h3, h4⟩
      exact ⟨h1, h2, fun he => h3 (by rw [he]), h4⟩
    · rintro ⟨h1, h2, h3, h4⟩
      exact ⟨h1, h2, fun he => h3 (Option.some_inj.1 he).symm, h4⟩

/-- C10 counterexample: connecting websocket 1 to session 10 and then, without
    a disconnect, to session 20 is a legal operation sequence on the manager; it
    leaves websocket 1 inside the connection set of session 10 while the reverse
    dict maps it to session 20, so the claimed two-way correspondence fails. -/
theorem manager_double_connect_counterexample :
    CMReachable cmDouble ∧ 10 ∈ cmDouble.activeKeys ∧ 1 ∈ cmDouble.activeConns 10 ∧
    cmDouble.wsSession 1 ≠ some 10 := by
  refine ⟨?_, by decide, by decide, by decide⟩
  exact CMReachable.connect (ConnectionManager.empty.connect 1 10) 1 20
    (CMReachable.connect ConnectionManager.empty 1 10 CMReachable.empty)

/-- C2: on every reachable state of an order item, every surviving assignment
    carries the same assigned_amount, namely unit_price floor-div the current
    number of assignments on the item; the remainder of the division is kept
    nowhere. Both mutations rewrite every surviving row to the freshly computed
    equal share, so the invariant is restored after each command. -/
theorem assignment_shares_invariant (unitPrice : Int) (itemId : Nat) (st : ItemState)
    (h : ItemReachable unitPrice itemId st) :
    ∀ a ∈ st.assignments,
      a.assignedAmount = unitPrice.fdiv (st.assignments.length : Int) := by
  induction h with
  | init =>
    intro a ha
    simp [itemStateInit] at ha
  | assign st locked c d h ih =>
    cases locked with
    | true => exact ih
    | false =>
      intro a ha
      rw [handleAssignItem_false, assignItemCore_assignments] at ha ⊢
      rcases List.mem_map.1 ha with ⟨b, _, rfl⟩
      show assignNewAmount unitPrice st c = _
      have hlen : ((assignKept st c ++ [assignNewRow unitPrice itemId st c d]).map
          (fun a => { a with assignedAmount := assignNewAmount unitPrice st c })).length =
          (assignKept st c).length + 1 := by
        simp
      rw [hlen]
      have hne : ¬ (((assignKept st c).length : Int) + 1 = 0) := by omega
      simp only [assignNewAmount, getNewAmountPerAssignment, Bool.false_eq_true, if_false,
        hne]
      congr 1
  | remove st locked aid h ih =>
    cases locked with
    | true => exact ih
    | false =>
      rcases hfind : st.assignments.find? (fun a => a.id == aid) with _ | a0
      · have hred : handleRemoveAssignment false unitPrice st aid =
            (st, [WsEvent.errorMsg "Assignment not found"]) := by
          simp [handleRemoveAssignment, hfind]
        rw [hred]
        exact ih
      · have hred : handleRemoveAssignment false unitPrice st aid =
            removeAssignmentCore unitPrice st aid := by
          simp [handleRemoveAssignment, hfind]
        rw [hred]
        intro a ha
        rw [removeAssignmentCore_assignments] at ha ⊢
        rcases List.mem_map.1 ha with ⟨b, hb, rfl⟩
        have hmem0 : a0 ∈ st.assignments := List.mem_of_find?_eq_some hfind
        have hp0 := List.find?_some hfind
        have hlen : (st.assignments.eraseP (fun a => a.id == aid)).length + 1 =
            st.assignments.length :=
          List.length_eraseP_add_one hmem0 hp0
        have hbpos : 0 < (st.assignments.eraseP (fun a => a.id == aid)).length :=
          List.length_pos_of_mem hb
        show getNewAmountPerAssignment unitPrice st.assignments.length true = _
        simp only [getNewAmountPerAssignment, List.length_map, if_true]
        rw [if_neg (by omega)]
        congr 1
        omega

/-- C2 witness: in the reachable state produced by two self-pay assigns on an
    item of price 100, the surviving row of the first assign holds exactly
    100 fdiv 2, as the invariant theorem demands at that concrete member. -/
theorem assignment_shares_invariant_witness :
    ({ id := 0, orderItemId := 0, creditorId := 1, debtorId := none,
       assignedAmount := 50 } : ItemAssignment).assignedAmount =
      (100 : Int).fdiv (c2State.assignments.length : Int) :=
  assignment_shares_invariant 100 0 c2State
    (ItemReachable.assign (handleAssignItem false 100 0 itemStateInit 1 none).1 false 2 none
      (ItemReachable.assign itemStateInit false 1 none ItemReachable.init))
    { id := 0, orderItemId := 0, creditorId := 1, debtorId := none, assignedAmount := 50 }
    (by decide)

/-- C7: whenever the set of users who appear as creditor on at least one
    assignment of the session is non-empty and contained in the set of users
    who appear as from_user on at least one paid invoice of the session, the
    auto-finalize block that pay_bill runs after its batch commits closes the
    session: status becomes closed, total_amount becomes the sum of all
    assignment amounts, and session_end is stamped with the current time. In
    the source the whole block sits in a try-except that only logs, so its
    failure can never fail the payment that triggered it. -/
theorem pay_bill_auto_finalize (db : Db) (sid now : Nat)
    (h1 : participantsWithAssignments db sid ≠ [])
    (h2 : ∀ u ∈ participantsWithAssignments db sid, u ∈ participantsWhoPaid db sid) :
    ∀ s ∈ (finalizePhase db sid now).sessions, s.id = sid →
      s.status = "closed" ∧
      s.totalAmount = some (sessionAssignmentsTotal db sid) ∧
      s.sessionEnd = some now := by
  have hcond : (decide (0 < (participantsWithAssignments db sid).length) &&
      (participantsWithAssignments db sid).all
        (fun u => (participantsWhoPaid db sid).contains u)) = true := by
    rw [Bool.and_eq_true]
    constructor
    · simpa [List.length_pos] using h1
    · rw [List.all_eq_true]
      intro u hu
      simpa [List.elem_iff] using h2 u hu
  intro s hs hid
  unfold finalizePhase at hs
  rw [hcond] at hs
  simp only [if_true] at hs
  rcases hf : db.sessions.find? (fun t => t.id == sid) with _ | s0
  · rw [hf] at hs
    have := List.find?_eq_none.1 hf s hs
    simp [hid] at this
  · rw [hf] at hs
    rcases List.mem_map.1 hs with ⟨t, _, rfl⟩
    by_cases ht2 : (t.id == sid) = true
    · simp [ht2]
    · rw [if_neg ht2] at hid
      exact absurd (by simp [hid]) ht2

/-- C7 witness: in the concrete pay_bill database extended with a paid invoice
    whose payer is user 7, the creditor user set is non-empty and contained in
    the paid payer set, and the session row left by the finalize block carries
    status closed, the assignment total, and the stamp 77. -/
theorem pay_bill_auto_finalize_witness :
    participantsWithAssignments dbPayFinal 5 ≠ [] ∧
    ({ id := 5, restaurantId := 3, status := "closed", totalAmount := some 100,
       locked := false, sessionEnd := some 77 } : SessionRow).totalAmount =
      some (sessionAssignmentsTotal dbPayFinal 5) ∧
    ({ id := 5, restaurantId := 3, status := "closed", totalAmount := some 100,
       locked := false, sessionEnd := some 77 } : SessionRow).sessionEnd = some 77 :=
  ⟨by decide,
    (pay_bill_auto_finalize dbPayFinal 5 77 (by decide) (by decide)
      { id := 5, restaurantId := 3, status := "closed", totalAmount := some 100,
        locked := false, sessionEnd := some 77 }
      (by decide) rfl).2.1,
    (pay_bill_auto_finalize dbPayFinal 5 77 (by decide) (by decide)
      { id := 5, restaurantId := 3, status := "closed", totalAmount := some 100,
        locked := false, sessionEnd := some 77 }
      (by decide) rfl).2.2⟩

lemma cm_ws_not_in_conns (m : ConnectionManager) (hc : cmConsistent m) (ws : Nat)
    (hfresh : m.wsSession ws = none) :
    ∀ s, s ∈ m.activeKeys → ws ∉ m.activeConns s := by
  intro s hs hmem
  have h := (hc.1 ws s).1 ⟨hs, hmem⟩
  rw [hfresh] at h
  exact Option.noConfusion h

lemma cm_connect_preserves (m : ConnectionManager) (ws sid : Nat)
    (hfresh : m.wsSession ws = none) (hc : cmConsistent m) (ht : cmTidy m) :
    cmConsistent (m.connect ws sid) ∧ cmTidy (m.connect ws sid) := by
  have hnotin := cm_ws_not_in_conns m hc ws hfresh
  by_cases hk : sid ∈ m.activeKeys
  · have hred : m.connect ws sid =
        { activeKeys := m.activeKeys,
          activeConns := setFn m.activeConns sid (m.activeConns sid ++ [ws]),
          wsSession := setFn m.wsSession ws (some sid) } := by
      simp [ConnectionManager.connect, hk, hnotin sid hk]
    rw [hred]
    dsimp only [cmConsistent, cmTidy]
    refine ⟨⟨?_, ?_⟩, ?_, ?_⟩
    · intro w s
      by_cases hw : w = ws
      · rw [hw, setFn_same]
        constructor
        · rintro ⟨hsK, hsC⟩
          by_cases hss : s = sid
          · rw [hss]
          · rw [setFn_other _ _ _ _ hss] at hsC
            exact absurd hsC (hnotin s hsK)
        · intro hses
          injection hses with hses
          rw [← hses, setFn_same]
          exact ⟨hk, List.mem_append_right _ (by simp)⟩
      · rw [setFn_other _ _ _ _ hw]
        by_cases hss : s = sid
        · rw [hss, setFn_same]
          constructor
          · rintro ⟨hsK, hsC⟩
            rcases List.mem_append.1 hsC with h1 | h1
            · exact (hc.1 w sid).1 ⟨hk, h1⟩
            · simp at h1
              exact absurd h1 hw
          · intro hses
            have h0 := (hc.1 w sid).2 hses
            exact ⟨hk, List.mem_append_left _ h0.2⟩
        · rw [setFn_other _ _ _ _ hss]
          exact hc.1 w s
    · intro s hs
      by_cases hss : s = sid
      · rw [hss, setFn_same]
        simp
      · rw [setFn_other _ _ _ _ hss]
        exact hc.2 s hs
    · exact ht.1
    · intro s hs
      by_cases hss : s = sid
      · rw [hss, setFn_same]
        simp [List.nodup_append, ht.2 sid hk, hnotin sid hk]
      · rw [setFn_other _ _ _ _ hss]
        exact ht.2 s hs
  · have hred : m.connect ws sid =
        { activeKeys := m.activeKeys ++ [sid],
          activeConns := setFn m.activeConns sid [ws],
          wsSession := setFn m.wsSession ws (some sid) } := by
      simp [ConnectionManager.connect, hk]
    rw [hred]
    dsimp only [cmConsistent, cmTidy]
    refine ⟨⟨?_, ?_⟩, ?_, ?_⟩
    · intro w s
      by_cases hw : w = ws
      · rw [hw, setFn_same]
        constructor
        · rintro ⟨hsK, hsC⟩
          by_cases hss : s = sid
          · rw [hss]
          · rw [setFn_other _ _ _ _ hss] at hsC
            rcases List.mem_append.1 hsK with h1 | h1
            · exact absurd hsC (hnotin s h1)
            · simp at h1
              exact absurd h1 hss
        · intro hses
          injection hses with hses
          rw [← hses, setFn_same]
          exact ⟨List.mem_append_right _ (by simp), by simp⟩
      · rw [setFn_other _ _ _ _ hw]
        by_cases hss : s = sid
        · rw [hss, setFn_same]
          constructor
          · rintro ⟨_, hsC⟩
            simp at hsC
            exact absurd hsC hw
          · intro hses
            have h0 := (hc.1 w sid).2 hses
            exact absurd h0.1 hk
        · rw [setFn_other _ _ _ _ hss]
          constructor
          · rintro ⟨hsK, hsC⟩
            rcases List.mem_append.1 hsK with h1 | h1
            · exact (hc.1 w s).1 ⟨h1, hsC⟩
            · simp at h1
              exact absurd h1 hss
          · intro hses
            have h0 := (hc.1 w s).2 hses
            exact ⟨List.mem_append_left _ h0.1, h0.2⟩
    · intro s hs
      by_cases hss : s = sid
      · rw [hss, setFn_same]
        simp
      · rw [setFn_other _ _ _ _ hss]
        rcases List.mem_append.1 hs with h1 | h1
        · exact hc.2 s h1
        · simp at h1
          exact absurd h1 hss
    · simp [List.nodup_append, ht.1, hk]
    · intro s hs
      by_cases hss : s = sid
      · rw [hss, setFn_same]
        simp
      · rw [setFn_other _ _ _ _ hss]
        rcases List.mem_append.1 hs with h1 | h1
        · exact ht.2 s h1
        · simp at h1
          exact absurd h1 hss

lemma cm_disconnect_preserves (m : ConnectionManager) (ws : Nat)
    (hc : cmConsistent m) (ht : cmTidy m) :
    cmConsistent (m.disconnect ws) ∧ cmTidy (m.disconnect ws) := by
  rcases hws : m.wsSession ws with _ | sid
  · have hid : m.disconnect ws = m := by
      simp [ConnectionManager.disconnect, hws]
    rw [hid]
    exact ⟨hc, ht⟩
  · have hkm := (hc.1 ws sid).2 hws
    have hnodup : (m.activeConns sid).Nodup := ht.2 sid hkm.1
    by_cases hz : (m.activeConns sid).erase ws = []
    · have hred : m.disconnect ws =
          { activeKeys := m.activeKeys.erase sid,
            activeConns := setFn m.activeConns sid ((m.activeConns sid).erase ws),
            wsSession := setFn m.wsSession ws none } := by
        simp [ConnectionManager.disconnect, hws, hkm.1, hz]
      rw [hred]
      dsimp only [cmConsistent, cmTidy]
      refine ⟨⟨?_, ?_⟩, ?_, ?_⟩
      · intro w s
        by_cases hw : w = ws
        · rw [hw, setFn_same]
          constructor
          · rintro ⟨hsK, hsC⟩
            by_cases hss : s = sid
            · rw [hss, setFn_same, hz] at hsC
              simp at hsC
            · rw [setFn_other _ _ _ _ hss] at hsC
              have h0 := (hc.1 ws s).1 ⟨List.mem_of_mem_erase hsK, hsC⟩
              rw [hws] at h0
              injection h0 with h0
              exact absurd h0.symm hss
          · intro h0
            exact Option.noConfusion h0
        · rw [setFn_other _ _ _ _ hw]
          by_cases hss : s = sid
          · rw [hss]
            constructor
            · rintro ⟨hsK, _⟩
              exact absurd rfl ((List.Nodup.mem_erase_iff ht.1).1 hsK).1
            · intro hses
              have h0 := (hc.1 w sid).2 hses
              have hin : w ∈ (m.activeConns sid).erase ws :=
                (List.mem_erase_of_ne hw).2 h0.2
              rw [hz] at hin
              simp at hin
          · rw [setFn_other _ _ _ _ hss]
            constructor
            · rintro ⟨hsK, hsC⟩
              exact (hc.1 w s).1 ⟨List.mem_of_mem_erase hsK, hsC⟩
            · intro hses
              have h0 := (hc.1 w s).2 hses
              exact ⟨(List.mem_erase_of_ne hss).2 h0.1, h0.2⟩
      · intro s hs
        have hss := ((List.Nodup.mem_erase_iff ht.1).1 hs).1
        rw [setFn_other _ _ _ _ hss]
        exact hc.2 s (List.mem_of_mem_erase hs)
      · exact List.Nodup.erase sid ht.1
      · intro s hs
        have hss := ((List.Nodup.mem_erase_iff ht.1).1 hs).1
        rw [setFn_other _ _ _ _ hss]
        exact ht.2 s (List.mem_of_mem_erase hs)
    · have hred : m.disconnect ws =
          { activeKeys := m.activeKeys,
            activeConns := setFn m.activeConns sid ((m.activeConns sid).erase ws),
            wsSession := setFn m.wsSession ws none } := by
        simp [ConnectionManager.disconnect, hws, hkm.1, hz]
      rw [hred]
      dsimp only [cmConsistent, cmTidy]
      refine ⟨⟨?_, ?_⟩, ?_, ?_⟩
      · intro w s
        by_cases hw : w = ws
        · rw [hw, setFn_same]
          constructor
          · rintro ⟨hsK, hsC⟩
            by_cases hss : s = sid
            · rw [hss, setFn_same] at hsC
              exact absurd rfl ((List.Nodup.mem_erase_iff hnodup).1 hsC).1
            · rw [setFn_other _ _ _ _ hss] at hsC
              have h0 := (hc.1 ws s).1 ⟨hsK, hsC⟩
              rw [hws] at h0
              injection h0 with h0
              exact absurd h0.symm hss
          · intro h0
            exact Option.noConfusion h0
        · rw [setFn_other _ _ _ _ hw]
          by_cases hss : s = sid
          · rw [hss, setFn_same]
            constructor
            · rintro ⟨hsK, hsC⟩
              exact (hc.1 w sid).1 ⟨hsK, List.mem_of_mem_erase hsC⟩
            · intro hses
              have h0 := (hc.1 w sid).2 hses
              exact ⟨h0.1, (List.mem_erase_of_ne hw).2 h0.2⟩
          · rw [setFn_other _ _ _ _ hss]
            exact hc.1 w s
      · intro s hs
        by_cases hss : s = sid
        · rw [hss, setFn_same]
          exact hz
        · rw [setFn_other _ _ _ _ hss]
          exact hc.2 s hs
      · exact ht.1
      · intro s hs
        by_cases hss : s = sid
        · rw [hss, setFn_same]
          exact List.Nodup.erase ws hnodup
        · rw [setFn_other _ _ _ _ hss]
          exact ht.2 s hs

lemma cm_foldl_disconnect_preserves (l : List Nat) (m : ConnectionManager)
    (hc : cmConsistent m) (ht : cmTidy m) :
    cmConsistent (l.foldl (fun acc c => acc.disconnect c) m) ∧
      cmTidy (l.foldl (fun acc c => acc.disconnect c) m) := by
  induction l generalizing m with
  | nil => exact ⟨hc, ht⟩
  | cons a l ih =>
    have h1 := cm_disconnect_preserves m a hc ht
    exact ih (m.disconnect a) h1.1 h1.2

lemma cm_broadcast_preserves (m : ConnectionManager) (sid : Nat) (exclude : Option Nat)
    (alive : Nat → Bool) (hc : cmConsistent m) (ht : cmTidy m) :
    cmConsistent (m.broadcastToSession sid exclude alive) ∧
      cmTidy (m.broadcastToSession sid exclude alive) := by
  unfold ConnectionManager.broadcastToSession
  by_cases hk : sid ∈ m.activeKeys
  · rw [if_pos hk]
    exact cm_foldl_disconnect_preserves _ m hc ht
  · rw [if_neg hk]
    exact ⟨hc, ht⟩

lemma cm_empty_invariant : cmConsistent ConnectionManager.empty ∧ cmTidy ConnectionManager.empty := by
  refine ⟨⟨?_, ?_⟩, ?_, ?_⟩ <;> simp [ConnectionManager.empty]

/-- C10 amended: starting from the empty registry, after any sequence of
    connect, disconnect and broadcast_to_session operations in which every
    connect is called with a websocket not currently registered (the usage
    pattern of the endpoint, which connects each fresh websocket exactly once),
    a websocket lies in the connection set of a registered session exactly when
    the reverse dict maps it to that session, and no registered session key
    holds an empty connection set. Without the freshness restriction the claim
    fails, as the double-connect counterexample shows. -/
theorem manager_registry_invariant (m : ConnectionManager) (h : CMFreshReachable m) :
    cmConsistent m := by
  have hboth : cmConsistent m ∧ cmTidy m := by
    induction h with
    | empty => exact cm_empty_invariant
    | connect m ws sid h hfresh ih => exact cm_connect_preserves m ws sid hfresh ih.1 ih.2
    | disconnect m ws h ih => exact cm_disconnect_preserves m ws ih.1 ih.2
    | broadcast m sid exclude alive h ih =>
      exact cm_broadcast_preserves m sid exclude alive ih.1 ih.2
  exact hboth.1

/-- C10 amended witness: after one fresh connect of websocket 1 to session 10,
    the invariant instance for this pair holds: membership of websocket 1 in
    the set of session 10 is equivalent to the reverse dict entry. -/
theorem manager_registry_invariant_witness :
    (10 ∈ cmFreshOne.activeKeys ∧ 1 ∈ cmFreshOne.activeConns 10) ↔
      cmFreshOne.wsSession 1 = some 10 :=
  (manager_registry_invariant cmFreshOne
    (CMFreshReachable.connect ConnectionManager.empty 1 10 CMFreshReachable.empty rfl)).1 1 10
